import Mathlib

/-!
Shallow embedding of `src/app.py`, a FastAPI service that scans a directory of
contract spreadsheets, filters them by a spend tolerance band encoded in their
filenames, aggregates normalized discount values per service level, ranks the
service levels by average discount and formats the result.

Modelling conventions:
* Python floats are modelled by `ℚ`.  Every claim under study is about exact
  decimal inputs and order/arithmetic relations that hold identically for IEEE
  doubles at the small magnitudes involved.  NaN has no image in `ℚ`, so the one
  behaviour that turns on NaN — a blank cell, which pandas materialises as NaN
  and on which `float` succeeds — is settled on the NaN-aware `PyFloat` domain
  defined below (claim C10 explicitly assumes no NaN among contributing
  discounts).
* Python string operations used on filenames (`split('_')`, `replace('.xlsx','')`,
  `endswith('.xlsx')`, `float(...)`) are implemented character by character with
  Python semantics so that concrete runs evaluate inside Lean.
* Exceptions that `app.py` does not catch are modelled by `Except String`:
  an uncaught `ValueError`/`IndexError` aborts `analyze_contracts` exactly as it
  aborts the Python request.
* `pandas`/filesystem collaborators are modelled by their observable output: a
  directory is a list of `ContractFile`s, a row carries the service-level label
  and the outcome of `float(row[current_col])`.
* Python's stable Timsort is modelled by insertion sort; the spec leaves the
  order of ties unspecified and no claim depends on it.
-/

namespace ContractApp

/-- Python `str.split('_')` on the character list of a string: splits at every
underscore and keeps empty pieces, so `"a_b".split('_') = ["a", "b"]` and
`"ab".split('_') = ["ab"]`. -/
def splitUnderscore : List Char → List (List Char)
  | [] => [[]]
  | c :: rest =>
    if c = '_' then [] :: splitUnderscore rest
    else
      match splitUnderscore rest with
      | [] => [[c]]
      | t :: ts => (c :: t) :: ts

/-- Python `str.replace(".xlsx", "")`: removes every occurrence of `.xlsx`,
scanning left to right without overlap, exactly as `str.replace` does. -/
def stripXlsxAll : List Char → List Char
  | '.' :: 'x' :: 'l' :: 's' :: 'x' :: rest => stripXlsxAll rest
  | c :: rest => c :: stripXlsxAll rest
  | [] => []

/-- Python `str.endswith(".xlsx")`. -/
def endsWithXlsx (s : String) : Bool :=
  s.toList.reverse.take 5 == ['x', 's', 'l', 'x', '.']

/-- Numeric value of a run of decimal digit characters, most significant first. -/
def digitsToNat (ds : List Char) : ℕ :=
  ds.foldl (fun a c => 10 * a + (c.toNat - 48)) 0

/-- Python `float(s)` on plain decimal literals: optional sign, then digits with
at most one decimal point and at least one digit overall.  Exponent, infinity,
nan and underscore-separator forms are not modelled; no claim depends on them.
Returns `none` exactly where Python raises `ValueError`. -/
def pyFloat? (s : List Char) : Option ℚ :=
  let signBody : ℚ × List Char :=
    match s with
    | '-' :: r => (-1, r)
    | '+' :: r => (1, r)
    | _ => (1, s)
  let ip := signBody.2.takeWhile Char.isDigit
  let rest := signBody.2.dropWhile Char.isDigit
  match rest with
  | [] => if ip.isEmpty then none else some (signBody.1 * (digitsToNat ip : ℚ))
  | '.' :: fp =>
    if fp.all Char.isDigit && !(ip.isEmpty && fp.isEmpty) then
      some (signBody.1 * ((digitsToNat ip : ℚ) + (digitsToNat fp : ℚ) / (10 : ℚ) ^ fp.length))
    else none
  | _ => none

/-- Contract spend encoded in a filename: Python
`float(filename.split('_')[1].replace('.xlsx', ''))` from `app.py:62`.
`none` models the uncaught `IndexError` (fewer than two `_`-separated tokens) or
`ValueError` (token not a number) that this expression raises in Python. -/
def parseSpend (filename : String) : Option ℚ :=
  match (splitUnderscore filename.toList)[1]? with
  | none => none
  | some tok => pyFloat? (stripXlsxAll tok)

/-- One spreadsheet row as `analyze_contracts` observes it: the value of its
`DOMESTIC AIR SERVICE LEVEL` cell and the outcome of `float(row[current_col])` —
`some q` when the coercion succeeds with the `ℚ`-representable value `q`, `none`
when it raises `ValueError` or `TypeError` (non-numeric string, `None` value),
the two exception types caught at `app.py:77`.  A blank cell is not `none`:
pandas materialises it as NaN and `float(NaN)` succeeds, so such a row is
processed, not skipped; NaN has no image in `ℚ`, and the NaN-aware
`DiscountCell`/`processRowF` model below covers that case explicitly. -/
structure ContractRow where
  service : String
  discountCell : Option ℚ
deriving DecidableEq

/-- One contract spreadsheet in the carrier directory: its filename and the rows
`pd.read_excel` yields for it. -/
structure ContractFile where
  filename : String
  rows : List ContractRow
deriving DecidableEq

/-- Function `normalize_discount` (`app.py:18-22`): divide by 100 only when the
value is strictly greater than 100. -/
def normalize_discount (discount : ℚ) : ℚ :=
  if discount > 100 then discount / 100 else discount

/-- Python dict accumulation from `app.py:74-76`: append `v` to the list stored
under `k`, creating the key at the end of the (insertion-ordered) dict if absent. -/
def dictAppend (acc : List (String × List ℚ)) (k : String) (v : ℚ) :
    List (String × List ℚ) :=
  match acc with
  | [] => [(k, [v])]
  | (k0, vs) :: rest =>
    if k0 = k then (k0, vs ++ [v]) :: rest
    else (k0, vs) :: dictAppend rest k v

/-- Row loop body `app.py:69-78`: a row whose discount cell coerces contributes
its normalized value to the group of its service label; a row whose coercion
fails is skipped (`except (ValueError, TypeError): continue`). -/
def processRow (acc : List (String × List ℚ)) (row : ContractRow) :
    List (String × List ℚ) :=
  match row.discountCell with
  | some x => dictAppend acc row.service (normalize_discount x)
  | none => acc

/-- File filter `app.py:61-65`: only filenames ending in `.xlsx` are considered;
the spend parsed from the filename must lie in the inclusive tolerance band.
A parse failure is an uncaught exception (`.error`), not a skip. -/
def fileSelected (lower_spend upper_spend : ℚ) (f : ContractFile) :
    Except String Bool :=
  if endsWithXlsx f.filename then
    match parseSpend f.filename with
    | some contract_spend =>
      if lower_spend ≤ contract_spend ∧ contract_spend ≤ upper_spend then .ok true
      else .ok false
    | none => .error ("could not convert string to float: " ++ f.filename)
  else
    .ok false

/-- One iteration of the directory loop `app.py:60-78`. -/
def processFile (lower_spend upper_spend : ℚ) (acc : List (String × List ℚ))
    (f : ContractFile) : Except String (List (String × List ℚ)) :=
  match fileSelected lower_spend upper_spend f with
  | .error e => .error e
  | .ok true => .ok (f.rows.foldl processRow acc)
  | .ok false => .ok acc

/-- Directory loop `app.py:60-78` over the whole listing; the first uncaught
exception aborts the loop, as in Python. -/
def scanFiles (lower_spend upper_spend : ℚ) (acc : List (String × List ℚ)) :
    List ContractFile → Except String (List (String × List ℚ))
  | [] => .ok acc
  | f :: rest =>
    match processFile lower_spend upper_spend acc f with
    | .error e => .error e
    | .ok acc2 => scanFiles lower_spend upper_spend acc2 rest

/-- Per-service statistics record built at `app.py:84-90`. -/
structure ServiceStats where
  avg_discount : ℚ
  min_discount : ℚ
  max_discount : ℚ
  contract_count : ℕ
  discount_values : List ℚ
deriving DecidableEq

/-- Statistics block `app.py:83-90`: `statistics.mean` is the exact sum divided
by the length, `min`/`max` fold over the list from its first element, and
`sorted` sorts ascending.  A service with an empty list is dropped
(`if discounts:`), hence the `Option`. -/
def mkStats : List ℚ → Option ServiceStats
  | [] => none
  | d :: ds =>
    some {
      avg_discount := (d :: ds).foldl (· + ·) 0 / ((d :: ds).length : ℚ)
      min_discount := ds.foldl min d
      max_discount := ds.foldl max d
      contract_count := (d :: ds).length
      discount_values := List.insertionSort (· ≤ ·) (d :: ds) }

/-- Statistics pass `app.py:81-90` over the accumulated per-service lists,
preserving dict insertion order. -/
def service_statsOf (acc : List (String × List ℚ)) : List (String × ServiceStats) :=
  acc.filterMap fun p => (mkStats p.2).map fun st => (p.1, st)

/-- Ordering used by `sorted(service_stats.items(), key=..., reverse=True)` at
`app.py:93-97`: descending by average discount. -/
def rankRel (a b : String × ServiceStats) : Prop :=
  b.2.avg_discount ≤ a.2.avg_discount

instance : DecidableRel rankRel :=
  fun a b => inferInstanceAs (Decidable (b.2.avg_discount ≤ a.2.avg_discount))

instance : IsTotal (String × ServiceStats) rankRel :=
  ⟨fun a b => le_total b.2.avg_discount a.2.avg_discount⟩

instance : IsTrans (String × ServiceStats) rankRel :=
  ⟨fun _ _ _ h1 h2 => le_trans h2 h1⟩

/-- Python list slice `lst[:top_n]`: for `top_n ≥ 0` the first
`min(top_n, len(lst))` elements; for `top_n < 0` the first
`max(len(lst) + top_n, 0)` elements (Python counts a negative bound from the
end of the list). -/
def pySlice {α : Type} (top_n : Int) (l : List α) : List α :=
  if 0 ≤ top_n then l.take top_n.toNat
  else l.take ((l.length : Int) + top_n).toNat

/-- Ranking step `app.py:92-97`: sort the statistics descending by average
discount, then truncate with the Python slice `[:top_n]`. -/
def rankTop (top_n : Int) (stats : List (String × ServiceStats)) :
    List (String × ServiceStats) :=
  pySlice top_n (List.insertionSort rankRel stats)

/-- Core routine `analyze_contracts` (`app.py:34-99`).  The `carrier` argument
only selects the directory (`os.path.join(BASE_PATH, carrier)`) and the
`CURRENT <CARRIER>` column name in Python; here the directory listing and the
relevant cell of each row are supplied directly, so the argument is carried for
fidelity but not consulted. -/
def analyze_contracts (target_spend : ℚ) (carrier : String) (tolerance : ℚ)
    (top_n : Int) (dir : List ContractFile) :
    Except String (List (String × ServiceStats)) :=
  match scanFiles (target_spend * (1 - tolerance)) (target_spend * (1 + tolerance)) [] dir with
  | .error e => .error e
  | .ok acc => .ok (rankTop top_n (service_statsOf acc))

/-- Fixed two-decimal rendering used by Python `f"{x:.2f}"`: round to the
nearest hundredth and print with exactly two fractional digits.  (Python rounds
the underlying binary double half-to-even; no claim exercises a tie, and the
values in all concrete runs are exact hundredths.) -/
def fmt2 (x : ℚ) : String :=
  let m : ℤ := round (x * 100)
  (if m < 0 then "-" else "") ++ toString (m.natAbs / 100) ++ "." ++
    (if m.natAbs % 100 < 10 then "0" ++ toString (m.natAbs % 100)
     else toString (m.natAbs % 100))

/-- Formatter `format_results` (`app.py:118-139`): builds a flat list of text
lines — six lines per service, each statistic multiplied by 100 and rendered
with two decimals — and joins them with newlines into a single string. -/
def format_results (stats : List (String × ServiceStats)) : String :=
  let output := stats.foldl (fun output p =>
    output ++
      ["\nService Level: " ++ p.1,
       "Average Discount: " ++ fmt2 (p.2.avg_discount * 100),
       "Min Discount: " ++ fmt2 (p.2.min_discount * 100),
       "Max Discount: " ++ fmt2 (p.2.max_discount * 100),
       "Contract Count: " ++ toString p.2.contract_count,
       "Discount Values: " ++
         String.intercalate ", " (p.2.discount_values.map (fun d => fmt2 (d * 100)))]) []
  String.intercalate "\n" output

/-- Request body of `POST /analyze_contracts/` (`app.py:13-16`). -/
structure SearchRequest where
  carrier : String
  tolerance : ℚ
  top_n : Int
deriving DecidableEq

/-- Uploaded spreadsheet as `extract_target_spend` observes it:
`total_charge = none` models a sheet without the `total_charge` column,
`some col` the numeric column contents. -/
structure UploadedSheet where
  filename : String
  total_charge : Option (List ℚ)
deriving DecidableEq

/-- Function `extract_target_spend` (`app.py:24-32`): sum of the `total_charge`
column, or the wrapped `ValueError` message when the column is missing. -/
def extract_target_spend (file : UploadedSheet) : Except String ℚ :=
  match file.total_charge with
  | none => .error "Error processing the file: The Excel file must contain a total_charge column."
  | some col => .ok (col.foldl (· + ·) 0)

/-- Endpoint `analyze_contracts_endpoint` (`app.py:101-116`): HTTP 400 for a
non-`.xlsx` upload, HTTP 500 with the exception message for any error raised
inside, otherwise the string produced by `format_results`. -/
def analyze_contracts_endpoint (request : SearchRequest) (file : UploadedSheet)
    (dir : List ContractFile) : Except (ℕ × String) String :=
  if endsWithXlsx file.filename then
    match extract_target_spend file with
    | .error e => .error (500, e)
    | .ok target_spend =>
      match analyze_contracts target_spend request.carrier request.tolerance
          request.top_n dir with
      | .error e => .error (500, e)
      | .ok results => .ok (format_results results)
  else
    .error (400, "Only .xlsx files are supported.")

/-- Formatter following the words of the spec (§4.5, §6): a JSON object
`{"results": [...]}` holding an ordered list of records with named fields
`service_level`, `average_discount`, `min_discount`, `max_discount`,
`contract_count`, `discount_values`, each discount multiplied by 100 and
rendered with two decimals.  Written only to compare the implemented formatter
against the specified output shape. -/
def format_results_spec (stats : List (String × ServiceStats)) : String :=
  "\x7b\"results\": [" ++
    String.intercalate ", " (stats.map fun p =>
      "\x7b\"service_level\": \"" ++ p.1 ++
      "\", \"average_discount\": " ++ fmt2 (p.2.avg_discount * 100) ++
      ", \"min_discount\": " ++ fmt2 (p.2.min_discount * 100) ++
      ", \"max_discount\": " ++ fmt2 (p.2.max_discount * 100) ++
      ", \"contract_count\": " ++ toString p.2.contract_count ++
      ", \"discount_values\": [" ++
        String.intercalate ", " (p.2.discount_values.map (fun d => fmt2 (d * 100))) ++
      "]\x7d") ++
  "]\x7d"

/-- Python float value as the row loop of `app.py:69-78` actually sees it: a
`ℚ`-representable number, or the IEEE NaN that pandas produces for a blank
cell.  NaN compares false under every `<`/`>` comparison in Python. -/
inductive PyFloat
  | num (q : ℚ)
  | nan
deriving DecidableEq

/-- Value of the discount cell as pandas delivers it to `float(...)` at
`app.py:72`: a numeric cell; a blank/missing cell, which `read_excel`
materialises as NaN and on which `float` succeeds (returning NaN); or a value on
which `float` raises `ValueError`/`TypeError` (non-numeric string, `None`). -/
inductive DiscountCell
  | num (q : ℚ)
  | nan
  | bad
deriving DecidableEq

/-- Outcome of `float(row[current_col])` on a `DiscountCell`: `none` exactly
when Python raises one of the exceptions caught at `app.py:77`; NaN coerces
successfully. -/
def floatOfCell : DiscountCell → Option PyFloat
  | .num q => some (.num q)
  | .nan => some .nan
  | .bad => none

/-- Function `normalize_discount` (`app.py:18-22`) on the NaN-aware domain:
`nan > 100` is False in Python, so NaN takes the `else` branch and passes
through unchanged. -/
def normalize_discount_float : PyFloat → PyFloat
  | .num q => .num (normalize_discount q)
  | .nan => .nan

/-- One spreadsheet row with its discount cell kept at the NaN-aware domain. -/
structure ContractRowF where
  service : String
  cell : DiscountCell
deriving DecidableEq

/-- Python dict accumulation `app.py:74-76` over NaN-aware float values. -/
def dictAppendF (acc : List (String × List PyFloat)) (k : String) (v : PyFloat) :
    List (String × List PyFloat) :=
  match acc with
  | [] => [(k, [v])]
  | (k0, vs) :: rest =>
    if k0 = k then (k0, vs ++ [v]) :: rest
    else (k0, vs) :: dictAppendF rest k v

/-- Row loop body `app.py:69-78` over the NaN-aware domain: only a row on which
`float` raises is skipped; every successfully coerced value — NaN included — is
normalized and appended to its service-level group. -/
def processRowF (acc : List (String × List PyFloat)) (row : ContractRowF) :
    List (String × List PyFloat) :=
  match floatOfCell row.cell with
  | some x => dictAppendF acc row.service (normalize_discount_float x)
  | none => acc

end ContractApp

namespace ContractApp

/-! Helper lemmas about the embedded operations. -/

lemma foldl_min_le_init (d : ℚ) (ds : List ℚ) : ds.foldl min d ≤ d := by
  induction ds generalizing d with
  | nil => exact le_refl d
  | cons e es ih => exact le_trans (ih (min d e)) (min_le_left d e)

lemma foldl_min_le_mem (d x : ℚ) (ds : List ℚ) (hx : x ∈ ds) : ds.foldl min d ≤ x := by
  induction ds generalizing d with
  | nil => cases hx
  | cons e es ih =>
    rcases List.mem_cons.mp hx with h | h
    · subst h
      exact le_trans (foldl_min_le_init (min d x) es) (min_le_right d x)
    · exact ih (min d e) h

lemma foldl_min_mem (d : ℚ) (ds : List ℚ) : ds.foldl min d ∈ d :: ds := by
  induction ds generalizing d with
  | nil => exact List.mem_singleton.mpr rfl
  | cons e es ih =>
    have h := ih (min d e)
    rcases List.mem_cons.mp h with h1 | h1
    · rcases min_choice d e with hm | hm
      · exact List.mem_cons.mpr (Or.inl (h1.trans hm))
      · exact List.mem_cons.mpr (Or.inr (List.mem_cons.mpr (Or.inl (h1.trans hm))))
    · simp only [List.foldl_cons]
      exact List.mem_cons.mpr (Or.inr (List.mem_cons.mpr (Or.inr h1)))

lemma le_foldl_max_init (d : ℚ) (ds : List ℚ) : d ≤ ds.foldl max d := by
  induction ds generalizing d with
  | nil => exact le_refl d
  | cons e es ih => exact le_trans (le_max_left d e) (ih (max d e))

lemma le_foldl_max_mem (d x : ℚ) (ds : List ℚ) (hx : x ∈ ds) : x ≤ ds.foldl max d := by
  induction ds generalizing d with
  | nil => cases hx
  | cons e es ih =>
    rcases List.mem_cons.mp hx with h | h
    · subst h
      exact le_trans (le_max_right d x) (le_foldl_max_init (max d x) es)
    · exact ih (max d e) h

lemma foldl_max_mem (d : ℚ) (ds : List ℚ) : ds.foldl max d ∈ d :: ds := by
  induction ds generalizing d with
  | nil => exact List.mem_singleton.mpr rfl
  | cons e es ih =>
    have h := ih (max d e)
    rcases List.mem_cons.mp h with h1 | h1
    · rcases max_choice d e with hm | hm
      · exact List.mem_cons.mpr (Or.inl (h1.trans hm))
      · exact List.mem_cons.mpr (Or.inr (List.mem_cons.mpr (Or.inl (h1.trans hm))))
    · simp only [List.foldl_cons]
      exact List.mem_cons.mpr (Or.inr (List.mem_cons.mpr (Or.inr h1)))

lemma foldl_add_eq_sum (init : ℚ) (l : List ℚ) : l.foldl (· + ·) init = init + l.sum := by
  induction l generalizing init with
  | nil => simp
  | cons a t ih => simp [List.foldl_cons, List.sum_cons, ih (init + a), add_assoc]

lemma length_mul_le_sum (c : ℚ) (l : List ℚ) (h : ∀ x ∈ l, c ≤ x) :
    (l.length : ℚ) * c ≤ l.sum := by
  induction l with
  | nil => simp
  | cons a t ih =>
    have ha := h a (List.mem_cons_self a t)
    have ht := ih fun x hx => h x (List.mem_cons.mpr (Or.inr hx))
    simp only [List.length_cons, List.sum_cons]
    push_cast
    nlinarith

lemma sum_le_length_mul (c : ℚ) (l : List ℚ) (h : ∀ x ∈ l, x ≤ c) :
    l.sum ≤ (l.length : ℚ) * c := by
  induction l with
  | nil => simp
  | cons a t ih =>
    have ha := h a (List.mem_cons_self a t)
    have ht := ih fun x hx => h x (List.mem_cons.mpr (Or.inr hx))
    simp only [List.length_cons, List.sum_cons]
    push_cast
    nlinarith

lemma sorted_head_le (a x : ℚ) (t : List ℚ) (h : List.Sorted (· ≤ ·) (a :: t))
    (hx : x ∈ a :: t) : a ≤ x := by
  rcases List.mem_cons.mp hx with h1 | h1
  · exact h1 ▸ le_refl a
  · exact (List.sorted_cons.mp h).1 x h1

lemma sorted_le_getLast (l : List ℚ) (h : List.Sorted (· ≤ ·) l) (hne : l ≠ [])
    (x : ℚ) (hx : x ∈ l) : x ≤ l.getLast hne := by
  induction l with
  | nil => cases hx
  | cons a t ih =>
    cases t with
    | nil =>
      rcases List.mem_cons.mp hx with h1 | h1
      · simp [h1, List.getLast]
      · cases h1
    | cons b u =>
      have htne : (b :: u) ≠ [] := by simp
      rw [List.getLast_cons htne]
      rcases List.mem_cons.mp hx with h1 | h1
      · subst h1
        have hmem := List.getLast_mem htne
        exact (List.sorted_cons.mp h).1 _ hmem
      · exact ih (List.sorted_cons.mp h).2 htne h1

lemma mkStats_eq_some (l : List ℚ) (st : ServiceStats) (h : mkStats l = some st) :
    ∃ d ds, l = d :: ds ∧
      st = { avg_discount := (d :: ds).foldl (· + ·) 0 / ((d :: ds).length : ℚ)
             min_discount := ds.foldl min d
             max_discount := ds.foldl max d
             contract_count := (d :: ds).length
             discount_values := List.insertionSort (· ≤ ·) (d :: ds) } := by
  cases l with
  | nil => cases h
  | cons d ds =>
    refine ⟨d, ds, rfl, ?_⟩
    simpa [mkStats] using h.symm

lemma mkStats_spec (l : List ℚ) (st : ServiceStats) (h : mkStats l = some st) :
    1 ≤ st.contract_count ∧
    st.contract_count = st.discount_values.length ∧
    st.discount_values ≠ [] ∧
    List.Sorted (· ≤ ·) st.discount_values ∧
    st.min_discount ≤ st.avg_discount ∧ st.avg_discount ≤ st.max_discount ∧
    st.discount_values.head? = some st.min_discount ∧
    st.discount_values.getLast? = some st.max_discount := by
  obtain ⟨d, ds, -, hst⟩ := mkStats_eq_some l st h
  subst hst
  have hperm := List.perm_insertionSort (α := ℚ) (· ≤ ·) (d :: ds)
  have hsorted := List.sorted_insertionSort (α := ℚ) (· ≤ ·) (d :: ds)
  have hlen : (List.insertionSort (α := ℚ) (· ≤ ·) (d :: ds)).length = ds.length + 1 := by
    rw [List.length_insertionSort]; rfl
  have hne : List.insertionSort (α := ℚ) (· ≤ ·) (d :: ds) ≠ [] := by
    intro hcon
    rw [hcon] at hlen
    cases hlen
  have hminmem : ds.foldl min d ∈ d :: ds := foldl_min_mem d ds
  have hmaxmem : ds.foldl max d ∈ d :: ds := foldl_max_mem d ds
  have hminle : ∀ x ∈ d :: ds, ds.foldl min d ≤ x := by
    intro x hx
    rcases List.mem_cons.mp hx with h1 | h1
    · exact h1 ▸ foldl_min_le_init d ds
    · exact foldl_min_le_mem d x ds h1
  have hmaxge : ∀ x ∈ d :: ds, x ≤ ds.foldl max d := by
    intro x hx
    rcases List.mem_cons.mp hx with h1 | h1
    · exact h1 ▸ le_foldl_max_init d ds
    · exact le_foldl_max_mem d x ds h1
  refine ⟨?_, ?_, hne, hsorted, ?_, ?_, ?_, ?_⟩
  · simp
  · simp only [ServiceStats.contract_count, ServiceStats.discount_values,
      List.length_insertionSort]
  · -- min ≤ avg
    have hsum : (d :: ds).foldl (· + ·) 0 = (d :: ds).sum := by
      rw [foldl_add_eq_sum, zero_add]
    have hbound := length_mul_le_sum (ds.foldl min d) (d :: ds) hminle
    have hlpos : (0 : ℚ) < ((d :: ds).length : ℚ) := by
      have : (0 : ℕ) < (d :: ds).length := by simp
      exact_mod_cast this
    simp only [ServiceStats.avg_discount, ServiceStats.min_discount, hsum]
    rw [le_div_iff₀ hlpos]
    calc ds.foldl min d * ((d :: ds).length : ℚ)
        = ((d :: ds).length : ℚ) * ds.foldl min d := by ring
      _ ≤ (d :: ds).sum := hbound
  · -- avg ≤ max
    have hsum : (d :: ds).foldl (· + ·) 0 = (d :: ds).sum := by
      rw [foldl_add_eq_sum, zero_add]
    have hbound := sum_le_length_mul (ds.foldl max d) (d :: ds) hmaxge
    have hlpos : (0 : ℚ) < ((d :: ds).length : ℚ) := by
      have : (0 : ℕ) < (d :: ds).length := by simp
      exact_mod_cast this
    simp only [ServiceStats.avg_discount, ServiceStats.max_discount, hsum]
    rw [div_le_iff₀ hlpos]
    calc (d :: ds).sum ≤ ((d :: ds).length : ℚ) * ds.foldl max d := hbound
      _ = ds.foldl max d * ((d :: ds).length : ℚ) := by ring
  · -- head of the sorted values is the minimum
    obtain ⟨a, t, hat⟩ := List.exists_cons_of_ne_nil hne
    have hmem_a : a ∈ d :: ds := by
      rw [← hperm.mem_iff, hat]
      exact List.mem_cons_self a t
    have hmin_in_sorted : ds.foldl min d ∈ a :: t := by
      rw [← hat, hperm.mem_iff]
      exact hminmem
    have h1 : a ≤ ds.foldl min d := by
      have hs : List.Sorted (· ≤ ·) (a :: t) := hat ▸ hsorted
      exact sorted_head_le a (ds.foldl min d) t hs hmin_in_sorted
    have h2 : ds.foldl min d ≤ a := hminle a hmem_a
    simp only [ServiceStats.discount_values, ServiceStats.min_discount, hat, List.head?_cons]
    exact congrArg some (le_antisymm h1 h2)
  · -- last of the sorted values is the maximum
    have hmax_in_sorted : ds.foldl max d ∈ List.insertionSort (· ≤ ·) (d :: ds) := by
      rw [hperm.mem_iff]
      exact hmaxmem
    have hlast_mem : (List.insertionSort (α := ℚ) (· ≤ ·) (d :: ds)).getLast hne ∈
        List.insertionSort (α := ℚ) (· ≤ ·) (d :: ds) := List.getLast_mem hne
    have h1 : ds.foldl max d ≤ (List.insertionSort (α := ℚ) (· ≤ ·) (d :: ds)).getLast hne :=
      sorted_le_getLast _ hsorted hne _ hmax_in_sorted
    have h2 : (List.insertionSort (α := ℚ) (· ≤ ·) (d :: ds)).getLast hne ≤ ds.foldl max d := by
      have : (List.insertionSort (α := ℚ) (· ≤ ·) (d :: ds)).getLast hne ∈ d :: ds := by
        rw [← hperm.mem_iff]
        exact hlast_mem
      exact hmaxge _ this
    simp only [ServiceStats.discount_values, ServiceStats.max_discount]
    rw [List.getLast?_eq_getLast _ hne]
    exact congrArg some (le_antisymm h2 h1)

lemma pySlice_sublist {α : Type} (n : Int) (l : List α) : (pySlice n l).Sublist l := by
  unfold pySlice
  split
  · exact List.take_sublist _ l
  · exact List.take_sublist _ l

lemma mem_rankTop (top_n : Int) (stats : List (String × ServiceStats))
    (p : String × ServiceStats) (hp : p ∈ rankTop top_n stats) : p ∈ stats := by
  have h1 : p ∈ List.insertionSort rankRel stats :=
    (pySlice_sublist top_n _).mem hp
  exact (List.mem_insertionSort rankRel).mp h1

lemma analyze_ok_mem (target_spend : ℚ) (carrier : String) (tolerance : ℚ) (top_n : Int)
    (dir : List ContractFile) (res : List (String × ServiceStats))
    (h : analyze_contracts target_spend carrier tolerance top_n dir = .ok res)
    (s : String) (st : ServiceStats) (hm : (s, st) ∈ res) :
    ∃ ds : List ℚ, mkStats ds = some st := by
  unfold analyze_contracts at h
  cases hscan : scanFiles (target_spend * (1 - tolerance)) (target_spend * (1 + tolerance)) [] dir with
  | error e => rw [hscan] at h; cases h
  | ok acc =>
    rw [hscan] at h
    have hres : res = rankTop top_n (service_statsOf acc) := by
      cases h; rfl
    subst hres
    have hmem : (s, st) ∈ service_statsOf acc := mem_rankTop top_n _ _ hm
    obtain ⟨p, -, hps⟩ := List.mem_filterMap.mp hmem
    obtain ⟨st2, hst2, heq⟩ := Option.map_eq_some'.mp hps
    refine ⟨p.2, ?_⟩
    have : st2 = st := congrArg Prod.snd heq
    rw [← this]
    exact hst2

lemma processFile_error_of_bad (lower_spend upper_spend : ℚ)
    (acc : List (String × List ℚ)) (f : ContractFile)
    (hx : endsWithXlsx f.filename = true) (hp : parseSpend f.filename = none) :
    processFile lower_spend upper_spend acc f =
      .error ("could not convert string to float: " ++ f.filename) := by
  simp [processFile, fileSelected, hx, hp]

lemma scanFiles_error_of_bad (lower_spend upper_spend : ℚ)
    (acc : List (String × List ℚ)) (dir : List ContractFile)
    (h : ∃ f ∈ dir, endsWithXlsx f.filename = true ∧ parseSpend f.filename = none) :
    ∃ msg, scanFiles lower_spend upper_spend acc dir = .error msg := by
  induction dir generalizing acc with
  | nil => obtain ⟨f, hf, -⟩ := h; cases hf
  | cons g rest ih =>
    obtain ⟨f, hf, hbad⟩ := h
    cases hpg : processFile lower_spend upper_spend acc g with
    | error e =>
      refine ⟨e, ?_⟩
      simp [scanFiles, hpg]
    | ok acc2 =>
      rcases List.mem_cons.mp hf with h1 | h1
      · subst h1
        rw [processFile_error_of_bad lower_spend upper_spend acc f hbad.1 hbad.2] at hpg
        cases hpg
      · obtain ⟨msg, hmsg⟩ := ih acc2 ⟨f, h1, hbad⟩
        refine ⟨msg, ?_⟩
        simp [scanFiles, hpg, hmsg]

lemma foldl_append_eq_flatMap {α β : Type} (g : α → List β) (l : List α) (init : List β) :
    l.foldl (fun out p => out ++ g p) init = init ++ l.flatMap g := by
  induction l generalizing init with
  | nil => simp
  | cons a t ih => simp [List.foldl_cons, ih, List.flatMap_cons]

lemma service_statsOf_length (m : List (String × List ℚ)) (h : ∀ p ∈ m, p.2 ≠ []) :
    (service_statsOf m).length = m.length := by
  induction m with
  | nil => rfl
  | cons p rest ih =>
    have hp : p.2 ≠ [] := h p (List.mem_cons_self p rest)
    obtain ⟨d, ds, hds⟩ := List.exists_cons_of_ne_nil hp
    have hrest : (service_statsOf rest).length = rest.length :=
      ih fun q hq => h q (List.mem_cons.mpr (Or.inr hq))
    simp [service_statsOf, List.filterMap_cons, hds, mkStats] at hrest ⊢
    exact hrest

lemma rankTop_length (top_n : Int) (stats : List (String × ServiceStats)) :
    (rankTop top_n stats).length =
      if 0 ≤ top_n then min top_n.toNat stats.length
      else ((stats.length : Int) + top_n).toNat := by
  unfold rankTop pySlice
  split
  · rw [List.length_take, List.length_insertionSort]
  · rename_i hneg
    rw [List.length_take, List.length_insertionSort]
    have hle : ((stats.length : Int) + top_n).toNat ≤ stats.length := by
      have hn : top_n < 0 := lt_of_not_le hneg
      have h1 : (stats.length : Int) + top_n ≤ (stats.length : Int) := by omega
      have h2 := Int.toNat_le_toNat h1
      simpa using h2
    exact min_eq_left hle

lemma rankTop_pairwise (top_n : Int) (stats : List (String × ServiceStats)) :
    (rankTop top_n stats).Pairwise rankRel := by
  have hsorted : (List.insertionSort rankRel stats).Pairwise rankRel :=
    List.sorted_insertionSort rankRel stats
  exact List.Pairwise.sublist (pySlice_sublist top_n _) hsorted

lemma rankTop_all (top_n : Int) (stats : List (String × ServiceStats))
    (h : (stats.length : Int) ≤ top_n) :
    rankTop top_n stats = List.insertionSort rankRel stats := by
  have h0 : 0 ≤ top_n := le_trans (by positivity) h
  unfold rankTop pySlice
  rw [if_pos h0]
  apply List.take_of_length_le
  rw [List.length_insertionSort]
  have := Int.toNat_le_toNat h
  simpa using this

/-! Concrete evaluations shared by several verification results. -/

lemma parseSpend_UPS95000 : parseSpend "UPS_95000.xlsx" = some 95000 := by
  simp +decide [parseSpend, pyFloat?, digitsToNat, splitUnderscore, stripXlsxAll]

lemma parseSpend_UPSabc : parseSpend "UPS_abc.xlsx" = none := by
  simp +decide [parseSpend, pyFloat?, digitsToNat, splitUnderscore, stripXlsxAll]

lemma analyze_single_1850_eval :
    analyze_contracts 100000 "UPS" (1/10) 5 [⟨"UPS_95000.xlsx", [⟨"NDA", some 1850⟩]⟩] =
      .ok [("NDA", ⟨37/2, 37/2, 37/2, 1, [37/2]⟩)] := by
  norm_num +decide [analyze_contracts, scanFiles, processFile, fileSelected,
    parseSpend_UPS95000, processRow, dictAppend, normalize_discount, rankTop,
    service_statsOf, mkStats, pySlice, List.insertionSort, List.orderedInsert, rankRel]

set_option maxRecDepth 8000 in
lemma format_results_1850_eval :
    format_results [("NDA", ⟨37/2, 37/2, 37/2, 1, [37/2]⟩)] =
      "\nService Level: NDA\nAverage Discount: 1850.00\nMin Discount: 1850.00\nMax Discount: 1850.00\nContract Count: 1\nDiscount Values: 1850.00" := by
  norm_num [format_results, fmt2, round_eq]
  decide

set_option maxRecDepth 8000 in
lemma format_results_spec_1850_eval :
    format_results_spec [("NDA", ⟨37/2, 37/2, 37/2, 1, [37/2]⟩)] =
      "\x7b\"results\": [\x7b\"service_level\": \"NDA\", \"average_discount\": 1850.00, \"min_discount\": 1850.00, \"max_discount\": 1850.00, \"contract_count\": 1, \"discount_values\": [1850.00]\x7d]\x7d" := by
  norm_num [format_results_spec, fmt2, round_eq]
  decide

/-! Verification results for the documented properties. -/

/-- C1: for every discount input `d`, `normalize_discount` returns `d / 100` when
`d > 100` and returns `d` unchanged when `d ≤ 100`, so the boundary value 100
itself is not normalized. -/
theorem normalize_discount_boundary (d : ℚ) :
    (100 < d → normalize_discount d = d / 100) ∧ (d ≤ 100 → normalize_discount d = d) := by
  constructor
  · intro h
    rw [normalize_discount, if_pos h]
  · intro h
    rw [normalize_discount, if_neg (not_lt.mpr h)]

/-- C1 witness: the two branches at the concrete inputs 1850 and 100. -/
theorem normalize_discount_boundary_case :
    normalize_discount 1850 = 1850 / 100 ∧ normalize_discount 100 = 100 :=
  ⟨(normalize_discount_boundary 1850).1 (by norm_num),
   (normalize_discount_boundary 100).2 (by norm_num)⟩

/-- C2: a file whose name ends in `.xlsx` and parses to spend `contract_spend` is
selected if and only if
`target_spend * (1 - tolerance) ≤ contract_spend ≤ target_spend * (1 + tolerance)`,
both endpoints inclusive. -/
theorem fileSelected_iff_band (target_spend tolerance contract_spend : ℚ)
    (f : ContractFile) (hx : endsWithXlsx f.filename = true)
    (hp : parseSpend f.filename = some contract_spend) :
    fileSelected (target_spend * (1 - tolerance)) (target_spend * (1 + tolerance)) f =
        .ok true ↔
      (target_spend * (1 - tolerance) ≤ contract_spend ∧
        contract_spend ≤ target_spend * (1 + tolerance)) := by
  by_cases hband : target_spend * (1 - tolerance) ≤ contract_spend ∧
      contract_spend ≤ target_spend * (1 + tolerance)
  · simp [fileSelected, hx, hp, hband]
  · simp [fileSelected, hx, hp, hband]

/-- C2 witness: target spend 100000 with tolerance 0.1 selects `UPS_95000.xlsx`
(the worked example of the spec). -/
theorem fileSelected_iff_band_case :
    fileSelected ((100000 : ℚ) * (1 - 1/10)) (100000 * (1 + 1/10))
      ⟨"UPS_95000.xlsx", []⟩ = .ok true :=
  (fileSelected_iff_band 100000 (1/10) 95000 ⟨"UPS_95000.xlsx", []⟩ (by decide)
    parseSpend_UPS95000).mpr (by norm_num)

/-- C3 counterexample: with two non-empty service groups and `top_n = -1 ≤ 0` the
ranker returns one record — the Python slice `[:-1]` drops only the last element —
so the result is not the empty list the claim requires for every `top_n ≤ 0`. -/
theorem rankTop_negative_not_empty :
    rankTop (-1) (service_statsOf [("A", [(1 : ℚ)]), ("B", [2])]) =
      [("B", ⟨2, 2, 2, 1, [2]⟩)] ∧
    rankTop (-1) (service_statsOf [("A", [(1 : ℚ)]), ("B", [2])]) ≠ [] := by
  have h : rankTop (-1) (service_statsOf [("A", [(1 : ℚ)]), ("B", [2])]) =
      [("B", ⟨2, 2, 2, 1, [2]⟩)] := by
    norm_num +decide [rankTop, service_statsOf, mkStats, pySlice, List.insertionSort,
      List.orderedInsert, rankRel]
  refine ⟨h, ?_⟩
  rw [h]
  simp

/-- C3 (amended): for service groups with non-empty discount lists, the ranked
result has length `min(top_n, number_of_groups)` when `top_n ≥ 0` and
`max(number_of_groups + top_n, 0)` when `top_n < 0` (Python slice semantics); it
is sorted descending by average discount; `top_n = 0` yields the empty list; and
any `top_n ≥ number_of_groups` returns all groups. -/
theorem rankTop_spec (m : List (String × List ℚ)) (top_n : Int)
    (h : ∀ p ∈ m, p.2 ≠ []) :
    (rankTop top_n (service_statsOf m)).length =
      (if 0 ≤ top_n then min top_n.toNat m.length
       else ((m.length : Int) + top_n).toNat) ∧
    (rankTop top_n (service_statsOf m)).Pairwise
      (fun a b => b.2.avg_discount ≤ a.2.avg_discount) ∧
    (top_n = 0 → rankTop top_n (service_statsOf m) = []) ∧
    ((m.length : Int) ≤ top_n →
      (rankTop top_n (service_statsOf m)).Perm (service_statsOf m)) := by
  have hsl := service_statsOf_length m h
  refine ⟨?_, ?_, ?_, ?_⟩
  · rw [rankTop_length, hsl]
  · exact rankTop_pairwise top_n (service_statsOf m)
  · intro h0
    subst h0
    unfold rankTop pySlice
    simp
  · intro hle
    rw [rankTop_all top_n _ (by rw [hsl]; exact hle)]
    exact List.perm_insertionSort rankRel _

/-- C3 witness: the amended statement at two concrete groups with `top_n = 1`. -/
theorem rankTop_spec_case :
    (rankTop 1 (service_statsOf [("A", [(1 : ℚ)]), ("B", [2])])).length =
      (if 0 ≤ (1 : Int) then
        min (1 : Int).toNat ([("A", [(1 : ℚ)]), ("B", [2])] : List (String × List ℚ)).length
       else ((([("A", [(1 : ℚ)]), ("B", [2])] : List (String × List ℚ)).length : Int) + 1).toNat) ∧
    (rankTop 1 (service_statsOf [("A", [(1 : ℚ)]), ("B", [2])])).Pairwise
      (fun a b => b.2.avg_discount ≤ a.2.avg_discount) ∧
    ((1 : Int) = 0 → rankTop 1 (service_statsOf [("A", [(1 : ℚ)]), ("B", [2])]) = []) ∧
    ((([("A", [(1 : ℚ)]), ("B", [2])] : List (String × List ℚ)).length : Int) ≤ 1 →
      (rankTop 1 (service_statsOf [("A", [(1 : ℚ)]), ("B", [2])])).Perm
        (service_statsOf [("A", [(1 : ℚ)]), ("B", [2])])) :=
  rankTop_spec [("A", [(1 : ℚ)]), ("B", [2])] 1 (by simp)

/-- C4 counterexample: a directory holding the malformed `UPS_abc.xlsx` and a
well-formed matching contract makes `analyze_contracts` abort with an error — the
malformed file is not skipped and the rest of the computation never completes. -/
theorem analyze_malformed_filename_aborts :
    analyze_contracts 100000 "UPS" (1/10) 5
      [⟨"UPS_abc.xlsx", []⟩, ⟨"UPS_95000.xlsx", [⟨"NDA", some 10⟩]⟩] =
      .error ("could not convert string to float: " ++ "UPS_abc.xlsx") := by
  simp +decide [analyze_contracts, scanFiles, processFile, fileSelected, parseSpend_UPSabc]

/-- C4 (amended): whenever the directory contains a spreadsheet-named file whose
second underscore token does not parse as a number, the whole computation aborts
with an error and the endpoint reports HTTP 500 — there is no silent skip and no
partial output. -/
theorem analyze_aborts_on_malformed (target_spend : ℚ) (carrier : String)
    (tolerance : ℚ) (top_n : Int) (dir : List ContractFile)
    (h : ∃ f ∈ dir, endsWithXlsx f.filename = true ∧ parseSpend f.filename = none) :
    ∃ msg, analyze_contracts target_spend carrier tolerance top_n dir = .error msg ∧
      ∀ (request : SearchRequest) (file : UploadedSheet),
        endsWithXlsx file.filename = true →
        extract_target_spend file = .ok target_spend →
        request.tolerance = tolerance → request.top_n = top_n →
        analyze_contracts_endpoint request file dir = .error (500, msg) := by
  obtain ⟨msg, hmsg⟩ := scanFiles_error_of_bad
    (target_spend * (1 - tolerance)) (target_spend * (1 + tolerance)) [] dir h
  refine ⟨msg, ?_, ?_⟩
  · unfold analyze_contracts
    rw [hmsg]
  · intro request file hxf hext ht hn
    have hA : analyze_contracts target_spend request.carrier request.tolerance
        request.top_n dir = .error msg := by
      unfold analyze_contracts
      rw [ht, hn, hmsg]
    simp [analyze_contracts_endpoint, hxf, hext, hA]

/-- C4 witness: the amended statement at the concrete malformed directory. -/
theorem analyze_aborts_on_malformed_case :
    ∃ msg, analyze_contracts 100000 "UPS" (1/10) 5 [⟨"UPS_abc.xlsx", []⟩] = .error msg ∧
      ∀ (request : SearchRequest) (file : UploadedSheet),
        endsWithXlsx file.filename = true →
        extract_target_spend file = .ok 100000 →
        request.tolerance = 1/10 → request.top_n = 5 →
        analyze_contracts_endpoint request file [⟨"UPS_abc.xlsx", []⟩] =
          .error (500, msg) :=
  analyze_aborts_on_malformed 100000 "UPS" (1/10) 5 [⟨"UPS_abc.xlsx", []⟩]
    ⟨⟨"UPS_abc.xlsx", []⟩, List.mem_singleton.mpr rfl, by decide, parseSpend_UPSabc⟩

/-- C5 counterexample: a row whose discount cell is missing is not skipped —
pandas delivers NaN, `float(NaN)` succeeds, and the aggregator appends NaN to
the row's service-level group, so the accumulator does not stay empty the way a
skip would leave it. -/
theorem missing_cell_row_not_skipped :
    processRowF [] ⟨"NDA", DiscountCell.nan⟩ = [("NDA", [PyFloat.nan])] ∧
    processRowF [] ⟨"NDA", DiscountCell.nan⟩ ≠ [] := by
  constructor
  · rfl
  · decide

/-- C5 (amended): a row on which the numeric coercion raises — a non-numeric
value (`ValueError`) or a `None` cell (`TypeError`) — is skipped and the
remaining rows of the file aggregate exactly as if the row were absent; but a
row with a missing cell is not among these: its cell coerces to NaN, which
normalization passes through, and the row appends NaN to its service-level
group before aggregation continues with the remaining rows. -/
theorem row_coercion_skip_nan_kept (acc : List (String × List PyFloat))
    (pre post : List ContractRowF) (svc : String) :
    (pre ++ ⟨svc, DiscountCell.bad⟩ :: post).foldl processRowF acc =
      (pre ++ post).foldl processRowF acc ∧
    (pre ++ ⟨svc, DiscountCell.nan⟩ :: post).foldl processRowF acc =
      post.foldl processRowF (dictAppendF (pre.foldl processRowF acc) svc PyFloat.nan) := by
  constructor
  · rw [List.foldl_append, List.foldl_cons, List.foldl_append]
    rfl
  · rw [List.foldl_append, List.foldl_cons]
    rfl

/-- C6 counterexample: the discount cell 1850 normalizes to 18.5, but the
formatter multiplies by 100 again and renders "1850.00" — not the "18.50" the
claim requires. -/
theorem display_of_1850_not_18_50 :
    fmt2 (normalize_discount 1850 * 100) = "1850.00" ∧ "1850.00" ≠ "18.50" := by
  constructor
  · have h1 : normalize_discount 1850 * 100 = 1850 := by
      norm_num [normalize_discount]
    rw [h1]
    norm_num [fmt2, round_eq]
    decide
  · decide

/-- C6 (amended): the cell value 1850 normalizes to 18.5 (= 37/2), the pipeline
stores 18.5 as every statistic of its group, and the formatter displays the
value as "1850.00" (multiplied by 100 once more and rendered with 2 decimals). -/
theorem pipeline_1850_display :
    normalize_discount 1850 = 37/2 ∧
    analyze_contracts 100000 "UPS" (1/10) 5 [⟨"UPS_95000.xlsx", [⟨"NDA", some 1850⟩]⟩] =
      .ok [("NDA", ⟨37/2, 37/2, 37/2, 1, [37/2]⟩)] ∧
    format_results [("NDA", ⟨37/2, 37/2, 37/2, 1, [37/2]⟩)] =
      "\nService Level: NDA\nAverage Discount: 1850.00\nMin Discount: 1850.00\nMax Discount: 1850.00\nContract Count: 1\nDiscount Values: 1850.00" :=
  ⟨by norm_num [normalize_discount], analyze_single_1850_eval, format_results_1850_eval⟩

set_option maxRecDepth 8000 in
/-- C7 counterexample: on a concrete ranked statistic the implemented formatter
produces a flat newline-joined text report, which differs from the
`{"results": [...]}` JSON record list the claim describes (here rendered by
`format_results_spec`, written from the words of the spec). -/
theorem format_results_not_spec_shape :
    format_results [("NDA", ⟨37/2, 37/2, 37/2, 1, [37/2]⟩)] ≠
      format_results_spec [("NDA", ⟨37/2, 37/2, 37/2, 1, [37/2]⟩)] := by
  rw [format_results_1850_eval, format_results_spec_1850_eval]
  decide

/-- C7 (amended): the formatter produces a single newline-joined text report —
six lines per service in ranked order, every discount statistic multiplied by
100 and rendered with two decimals — and a successful request returns exactly
this string, not a `{"results": [...]}` record list. -/
theorem format_results_text (stats : List (String × ServiceStats))
    (request : SearchRequest) (file : UploadedSheet) (dir : List ContractFile)
    (target_spend : ℚ)
    (hx : endsWithXlsx file.filename = true)
    (hext : extract_target_spend file = .ok target_spend)
    (ha : analyze_contracts target_spend request.carrier request.tolerance
      request.top_n dir = .ok stats) :
    analyze_contracts_endpoint request file dir = .ok (format_results stats) ∧
    format_results stats = String.intercalate "\n" (stats.flatMap fun p =>
      ["\nService Level: " ++ p.1,
       "Average Discount: " ++ fmt2 (p.2.avg_discount * 100),
       "Min Discount: " ++ fmt2 (p.2.min_discount * 100),
       "Max Discount: " ++ fmt2 (p.2.max_discount * 100),
       "Contract Count: " ++ toString p.2.contract_count,
       "Discount Values: " ++
         String.intercalate ", " (p.2.discount_values.map fun d => fmt2 (d * 100))]) := by
  constructor
  · simp [analyze_contracts_endpoint, hx, hext, ha]
  · simp only [format_results, foldl_append_eq_flatMap, List.nil_append]

/-- C7 witness: the amended statement at a concrete request, upload and
directory. -/
theorem format_results_text_case :
    analyze_contracts_endpoint ⟨"UPS", 1/10, 5⟩ ⟨"upload.xlsx", some [100000]⟩
        [⟨"UPS_95000.xlsx", [⟨"NDA", some 1850⟩]⟩] =
      .ok (format_results [("NDA", ⟨37/2, 37/2, 37/2, 1, [37/2]⟩)]) ∧
    format_results [("NDA", ⟨37/2, 37/2, 37/2, 1, [37/2]⟩)] =
      String.intercalate "\n"
        (([("NDA", (⟨37/2, 37/2, 37/2, 1, [37/2]⟩ : ServiceStats))]).flatMap fun p =>
          ["\nService Level: " ++ p.1,
           "Average Discount: " ++ fmt2 (p.2.avg_discount * 100),
           "Min Discount: " ++ fmt2 (p.2.min_discount * 100),
           "Max Discount: " ++ fmt2 (p.2.max_discount * 100),
           "Contract Count: " ++ toString p.2.contract_count,
           "Discount Values: " ++
             String.intercalate ", " (p.2.discount_values.map fun d => fmt2 (d * 100))]) :=
  format_results_text [("NDA", ⟨37/2, 37/2, 37/2, 1, [37/2]⟩)] ⟨"UPS", 1/10, 5⟩
    ⟨"upload.xlsx", some [100000]⟩ [⟨"UPS_95000.xlsx", [⟨"NDA", some 1850⟩]⟩] 100000
    (by decide) (by norm_num [extract_target_spend]) analyze_single_1850_eval

/-- C8: a single selected contract file with one service level and one valid
discount row yields exactly one record whose average, minimum and maximum all
equal the normalized discount, with a contract count of 1. -/
theorem single_row_roundtrip (target_spend tolerance d s : ℚ)
    (carrier svc fname : String) (top_n : Int)
    (hx : endsWithXlsx fname = true) (hp : parseSpend fname = some s)
    (hlo : target_spend * (1 - tolerance) ≤ s)
    (hhi : s ≤ target_spend * (1 + tolerance)) (hn : 1 ≤ top_n) :
    analyze_contracts target_spend carrier tolerance top_n [⟨fname, [⟨svc, some d⟩]⟩] =
      .ok [(svc, { avg_discount := normalize_discount d
                   min_discount := normalize_discount d
                   max_discount := normalize_discount d
                   contract_count := 1
                   discount_values := [normalize_discount d] })] := by
  have h0 : (0 : Int) ≤ top_n := by omega
  have h1 : 1 ≤ top_n.toNat := by omega
  have hscan : scanFiles (target_spend * (1 - tolerance)) (target_spend * (1 + tolerance))
      [] [⟨fname, [⟨svc, some d⟩]⟩] = .ok [(svc, [normalize_discount d])] := by
    simp [scanFiles, processFile, fileSelected, hx, hp, hlo, hhi, processRow, dictAppend]
  have hstats : service_statsOf [(svc, [normalize_discount d])] =
      [(svc, { avg_discount := normalize_discount d
               min_discount := normalize_discount d
               max_discount := normalize_discount d
               contract_count := 1
               discount_values := [normalize_discount d] })] := by
    norm_num [service_statsOf, List.filterMap_cons, mkStats, List.insertionSort,
      List.orderedInsert]
  simp only [analyze_contracts, hscan]
  rw [hstats]
  unfold rankTop pySlice
  rw [if_pos h0]
  simp only [List.insertionSort, List.orderedInsert]
  rw [List.take_of_length_le (by simpa using h1)]

/-- C8 witness: the statement at a concrete single-row contract file. -/
theorem single_row_roundtrip_case :
    analyze_contracts 100000 "UPS" (1/10) 3 [⟨"UPS_95000.xlsx", [⟨"NDA", some 40⟩]⟩] =
      .ok [("NDA", { avg_discount := normalize_discount 40
                     min_discount := normalize_discount 40
                     max_discount := normalize_discount 40
                     contract_count := 1
                     discount_values := [normalize_discount 40] })] :=
  single_row_roundtrip 100000 (1/10) 40 95000 "UPS" "NDA" "UPS_95000.xlsx" 3
    (by decide) parseSpend_UPS95000 (by norm_num) (by norm_num) (by norm_num)

/-- C9: every service level appearing in a successful result has at least one
contributing valid discount — its contract count is at least 1 and its list of
discount values is non-empty. -/
theorem result_groups_nonempty (target_spend : ℚ) (carrier : String) (tolerance : ℚ)
    (top_n : Int) (dir : List ContractFile) (res : List (String × ServiceStats))
    (h : analyze_contracts target_spend carrier tolerance top_n dir = .ok res)
    (s : String) (st : ServiceStats) (hm : (s, st) ∈ res) :
    1 ≤ st.contract_count ∧ st.discount_values ≠ [] := by
  obtain ⟨ds, hds⟩ := analyze_ok_mem _ _ _ _ _ _ h s st hm
  obtain ⟨h1, h2, h3, h4, h5, h6, h7, h8⟩ := mkStats_spec ds st hds
  exact ⟨h1, h3⟩

/-- C9 witness: the statement at a concrete run producing one service record. -/
theorem result_groups_nonempty_case :
    1 ≤ (ServiceStats.contract_count ⟨37/2, 37/2, 37/2, 1, [37/2]⟩) ∧
    (ServiceStats.discount_values ⟨37/2, 37/2, 37/2, 1, [37/2]⟩) ≠ [] :=
  result_groups_nonempty 100000 "UPS" (1/10) 5 [⟨"UPS_95000.xlsx", [⟨"NDA", some 1850⟩]⟩]
    [("NDA", ⟨37/2, 37/2, 37/2, 1, [37/2]⟩)] analyze_single_1850_eval "NDA"
    ⟨37/2, 37/2, 37/2, 1, [37/2]⟩ (List.mem_singleton.mpr rfl)

/-- C10: every service record of a successful result is internally consistent:
`min ≤ avg ≤ max`, the contract count equals the number of stored values, the
stored values are sorted ascending, and their first and last elements are the
minimum and maximum. -/
theorem result_stats_consistent (target_spend : ℚ) (carrier : String) (tolerance : ℚ)
    (top_n : Int) (dir : List ContractFile) (res : List (String × ServiceStats))
    (h : analyze_contracts target_spend carrier tolerance top_n dir = .ok res)
    (s : String) (st : ServiceStats) (hm : (s, st) ∈ res) :
    st.min_discount ≤ st.avg_discount ∧ st.avg_discount ≤ st.max_discount ∧
    st.contract_count = st.discount_values.length ∧
    List.Sorted (· ≤ ·) st.discount_values ∧
    st.discount_values.head? = some st.min_discount ∧
    st.discount_values.getLast? = some st.max_discount := by
  obtain ⟨ds, hds⟩ := analyze_ok_mem _ _ _ _ _ _ h s st hm
  obtain ⟨h1, h2, h3, h4, h5, h6, h7, h8⟩ := mkStats_spec ds st hds
  exact ⟨h5, h6, h2, h4, h7, h8⟩

/-- C10 witness: the statement at a concrete run producing one service record. -/
theorem result_stats_consistent_case :
    (ServiceStats.min_discount ⟨37/2, 37/2, 37/2, 1, [37/2]⟩) ≤
      (ServiceStats.avg_discount ⟨37/2, 37/2, 37/2, 1, [37/2]⟩) ∧
    (ServiceStats.avg_discount ⟨37/2, 37/2, 37/2, 1, [37/2]⟩) ≤
      (ServiceStats.max_discount ⟨37/2, 37/2, 37/2, 1, [37/2]⟩) ∧
    (ServiceStats.contract_count ⟨37/2, 37/2, 37/2, 1, [37/2]⟩) =
      (ServiceStats.discount_values ⟨37/2, 37/2, 37/2, 1, [37/2]⟩).length ∧
    List.Sorted (· ≤ ·) (ServiceStats.discount_values ⟨37/2, 37/2, 37/2, 1, [37/2]⟩) ∧
    (ServiceStats.discount_values ⟨37/2, 37/2, 37/2, 1, [37/2]⟩).head? =
      some (ServiceStats.min_discount ⟨37/2, 37/2, 37/2, 1, [37/2]⟩) ∧
    (ServiceStats.discount_values ⟨37/2, 37/2, 37/2, 1, [37/2]⟩).getLast? =
      some (ServiceStats.max_discount ⟨37/2, 37/2, 37/2, 1, [37/2]⟩) :=
  result_stats_consistent 100000 "UPS" (1/10) 5 [⟨"UPS_95000.xlsx", [⟨"NDA", some 1850⟩]⟩]
    [("NDA", ⟨37/2, 37/2, 37/2, 1, [37/2]⟩)] analyze_single_1850_eval "NDA"
    ⟨37/2, 37/2, 37/2, 1, [37/2]⟩ (List.mem_singleton.mpr rfl)

end ContractApp
